import Mathlib

/-!
Verification development for the back_app_reservas repository: a reservation
CRUD backend (two source variants: src/server.js and src/unnamed/part_000).
The JS route handlers, the express-validator chains and the sanitizer are
shallowly embedded as executable Lean functions over a table state
(a list of rows); SQL statements are modelled by the corresponding list
operations, and each HTTP response by a constructor of an explicit type.
Third-party library behavior that the source invokes (sanitize-html,
validator.js sanitizers/validators, express-rate-limit) is modelled from the
spec and the libraries' documented contracts, as noted on each definition.
-/

namespace Reservas

/-- Whitespace characters trimmed by the validator.js trim sanitizer
(as invoked by .trim() in both variants' validation chains). -/
def isWsChar (c : Char) : Bool :=
  c = ' ' || c = '\t' || c = '\n' || c = '\r' || c = '\x0b' || c = '\x0c'

/-- Models validator.js trim (default whitespace characters), used by the
.trim() sanitizer in the validation chains of both variants. -/
def trimV (s : String) : String :=
  ⟨((s.data.dropWhile isWsChar).reverse.dropWhile isWsChar).reverse⟩

/-- Per-character HTML escaping of validator.js escape: the .escape()
sanitizer in the validation chains. Characters are compared by code point
where the literal would be awkward (34 quote, 39 apostrophe, 92 backslash,
96 backquote). -/
def escChar (c : Char) : List Char :=
  if c = '&' then "&amp;".data
  else if c.toNat = 34 then "&quot;".data
  else if c.toNat = 39 then "&#x27;".data
  else if c = '<' then "&lt;".data
  else if c = '>' then "&gt;".data
  else if c = '/' then "&#x2F;".data
  else if c.toNat = 92 then "&#x5C;".data
  else if c.toNat = 96 then "&#96;".data
  else [c]

/-- Models validator.js escape, used as .escape() in the validation chains. -/
def escapeV (s : String) : String :=
  ⟨s.data.foldr (fun c acc => escChar c ++ acc) []⟩

/-- Characters matched by . in a JavaScript regex (everything except the
four line terminators); the entity-stripping regex of src/server.js line 21
is replace(/&.*?;/g, ""). -/
def isDotChar (c : Char) : Bool :=
  !(c = '\n' || c = '\r' || c.toNat = 0x2028 || c.toNat = 0x2029)

/-- Scan for the first ';' reachable from the current position through
regex-dot characters only: the extent of a lazy &.*?; match. Returns the
remainder after the ';' when the match succeeds. -/
def scanSemi : List Char → Option (List Char)
  | [] => none
  | c :: rest =>
    if c = ';' then some rest
    else if isDotChar c then scanSemi rest
    else none

/-- Single left-to-right pass implementing the global lazy replacement
replace(/&.*?;/g, "") of src/server.js line 21. The buffer holds (reversed)
the characters consumed since the pending '&'; a reached ';' discards the
buffer (a completed match), a line terminator flushes it (a failed match:
every '&' inside the buffer is blocked by the same terminator). -/
def esAux : Option (List Char) → List Char → List Char
  | none, [] => []
  | some buf, [] => buf.reverse
  | none, c :: rest =>
    if c = '&' then esAux (some [c]) rest else c :: esAux none rest
  | some buf, c :: rest =>
    if c = ';' then esAux none rest
    else if isDotChar c then esAux (some (c :: buf)) rest
    else buf.reverse ++ c :: esAux none rest

/-- The entity-stripping pass .replace(/&.*?;/g, "") of src/server.js
line 21. -/
def entityStrip (cs : List Char) : List Char := esAux none cs

/-- Drop characters up to and including the next '>': the extent of a
skipped HTML tag. -/
def dropThroughGt : List Char → List Char
  | [] => []
  | c :: rest => if c = '>' then rest else dropThroughGt rest

/-- Recognizes the characters following '<' as opening a script element
(tag name "script" ended by '>', whitespace, '/' or end of input). -/
def isScriptOpen (rest : List Char) : Bool :=
  List.isPrefixOf "script".data rest &&
  (match rest.drop 6 with
   | [] => true
   | c :: _ => c = '>' || isWsChar c || c = '/')

/-- Recognizes the characters following '<' as the closing tag of a script
element. -/
def isScriptClose (rest : List Char) : Bool :=
  List.isPrefixOf "/script".data rest &&
  (match rest.drop 7 with
   | [] => true
   | c :: _ => c = '>' || isWsChar c || c = '/')

/-- Skip discarded script-element content: everything up to and including
the closing script tag (or all of the input when it never closes). -/
def afterCloseScript : List Char → List Char
  | [] => []
  | c :: rest =>
    if c = '<' && isScriptClose rest then dropThroughGt (rest.drop 7)
    else afterCloseScript rest

/-- Modelled from the spec: the sanitize-html call with an empty tag
allow-list and no allowed attributes (the library itself is not in src).
Per the spec it removes every HTML tag and every attribute; the content of
a script element is discarded whole (the spec requires a script element
including its body to sanitize away). Fueled so that the recursion is
structural; fuel equal to the input length always suffices since every
step consumes at least one character. -/
def removeTagsF : Nat → List Char → List Char
  | 0, _ => []
  | _ + 1, [] => []
  | n + 1, c :: rest =>
    if c = '<' then
      if isScriptOpen rest then removeTagsF n (afterCloseScript (rest.drop 6))
      else removeTagsF n (dropThroughGt rest)
    else c :: removeTagsF n rest

/-- Tag removal with adequate fuel: the sanitize-html core as modelled from
the spec. -/
def removeTags (cs : List Char) : List Char := removeTagsF cs.length cs

/-- The sanitizeInput of src/server.js lines 16-22: strip every HTML tag,
then strip every remaining HTML entity sequence with the lazy global
replacement replace(/&.*?;/g, ""). -/
def sanitizeInput (s : String) : String := ⟨entityStrip (removeTags s.data)⟩

/-- The sanitizeInput of src/unnamed/part_000 lines 17-20: strip every HTML
tag; no entity-stripping pass. -/
def sanitizeInputP0 (s : String) : String := ⟨removeTags s.data⟩

/-- Models validator.js isNumeric with default options (the .isNumeric()
check): an optional sign, an optional integer part followed by a decimal
point, and a nonempty digit run. -/
def isNumericV (s : String) : Bool :=
  let cs := match s.data with
    | c :: r => if c = '+' || c = '-' then r else c :: r
    | [] => []
  let intPart := cs.takeWhile (fun c => c ≠ '.')
  match cs.dropWhile (fun c => c ≠ '.') with
  | [] => !intPart.isEmpty && intPart.all Char.isDigit
  | _ :: frac => intPart.all Char.isDigit && !frac.isEmpty && frac.all Char.isDigit

/-- Models validator.js isBoolean with default (loose) options: the
.isBoolean() check accepts exactly these four strings. -/
def isBooleanV (s : String) : Bool :=
  s = "true" || s = "false" || s = "0" || s = "1"

/-- Modelled from the spec: the data model requires valid email syntax and
the .isEmail() check of validator.js is not in src, so a simplified stand-in
is used: exactly one at sign, a nonempty local part, a nonempty domain
containing a dot, and no whitespace. Every claim quantifies relative to this
same predicate on both its specification and its code side. -/
def isEmailModel (s : String) : Bool :=
  let cs := s.data
  let loc := cs.takeWhile (fun c => c ≠ '@')
  match cs.dropWhile (fun c => c ≠ '@') with
  | [] => false
  | _ :: dom =>
    !loc.isEmpty && !dom.isEmpty && !dom.contains '@' && dom.contains '.' &&
    cs.all (fun c => !isWsChar c)

/-- Length-window check of the .isLength() validator: min and max bounds on
the character count. -/
def lenOkB (lo hi : Nat) (s : String) : Bool :=
  decide (lo ≤ s.length) && decide (s.length ≤ hi)

/-- The shape of a request body for the create and update operations; every
field arrives as the string form of the JSON value, and the optional
servicio_adicional is none when the field is absent from the body. -/
structure Payload where
  apellidos : String
  nombres : String
  email : String
  telefono : String
  tipo_evento : String
  plan_evento : String
  cantidad_anticipo : String
  servicio_adicional : Option String
  horas_renta : String
  compromiso_pago : String
deriving DecidableEq, Repr

/-- One row of the reservas table; servicio_adicional is a nullable column
(none models SQL NULL). -/
structure Reserva where
  id : Nat
  apellidos : String
  nombres : String
  email : String
  telefono : String
  tipo_evento : String
  plan_evento : String
  cantidad_anticipo : String
  servicio_adicional : Option String
  horas_renta : String
  compromiso_pago : String
deriving DecidableEq, Repr

/-- The stored reservas table. -/
def Table := List Reserva

/-- One per-field error descriptor of the validation errors array
(the param and msg fields of an express-validator error object). -/
structure FieldError where
  param : String
  msg : String
deriving DecidableEq, Repr

/-- A JSON response of either variant, together with its HTTP status. -/
inductive Resp where
  | okRows (rows : List Reserva)
  | okRow (r : Reserva)
  | okMsg (m : String)
  | badRequest (errs : List FieldError)
  | notFound (m : String)
deriving DecidableEq, Repr

/-- HTTP status carried by each response form (the storage connector is
modelled as always succeeding, so the 500 branches of the handlers are not
reachable in the model). -/
def Resp.status : Resp → Nat
  | .okRows _ => 200
  | .okRow _ => 200
  | .okMsg _ => 200
  | .badRequest _ => 400
  | .notFound _ => 404

/-- Error block of one validator step: empty when the check passes, one
descriptor when it fails. -/
def errIf (b : Bool) (param msg : String) : List FieldError :=
  if b then [] else [⟨param, msg⟩]

/-- The validation chains of src/server.js lines 64-74 run in order: each
chain's sanitizers mutate the request body (trim before the length check,
escape after it), each failed validator contributes one error descriptor.
Returns the errors array and the mutated body read by the handler. -/
def validateS (p : Payload) : List FieldError × Payload :=
  let a := trimV p.apellidos
  let n := trimV p.nombres
  let em := trimV p.email
  let tf := trimV p.telefono
  let tv := trimV p.tipo_evento
  let pl := trimV p.plan_evento
  let errs :=
    errIf (lenOkB 2 27 a) "apellidos" "Los apellidos deben tener entre 2 y 27 caracteres" ++
    errIf (lenOkB 2 20 n) "nombres" "El nombre debe tener entre 2 y 20 caracteres" ++
    errIf (isEmailModel em) "email" "Ingresa un email válido" ++
    errIf (isNumericV tf) "telefono" "Invalid value" ++
    errIf (lenOkB 10 10 tf) "telefono" "Número de teléfono debe ser de 10 dígitos" ++
    errIf (lenOkB 3 10 tv) "tipo_evento" "Tipo de evento debe ser válido" ++
    errIf (decide (pl = "Clasico" ∨ pl = "Premium" ∨ pl = "Golden")) "plan_evento" "Plan de evento no válido" ++
    errIf (isNumericV p.cantidad_anticipo) "cantidad_anticipo" "Cantidad de anticipo debe ser un número" ++
    errIf (decide (p.horas_renta = "3" ∨ p.horas_renta = "4" ∨ p.horas_renta = "5" ∨
      p.horas_renta = "6" ∨ p.horas_renta = "7")) "horas_renta" "Horas de renta no válidas" ++
    errIf (isBooleanV p.compromiso_pago) "compromiso_pago" "Compromiso de pago debe ser verdadero o falso"
  (errs,
   { apellidos := escapeV a, nombres := escapeV n, email := em, telefono := tf,
     tipo_evento := escapeV tv, plan_evento := pl,
     cantidad_anticipo := p.cantidad_anticipo,
     servicio_adicional := p.servicio_adicional.map (fun s => escapeV (trimV s)),
     horas_renta := p.horas_renta, compromiso_pago := p.compromiso_pago })

/-- The validation chains of src/unnamed/part_000 lines 63-73: identical to
the server.js chains except that apellidos, nombres, tipo_evento and
plan_evento are escaped BEFORE their length or membership check, so the
check sees the escaped string. -/
def validateP0 (p : Payload) : List FieldError × Payload :=
  let a := escapeV (trimV p.apellidos)
  let n := escapeV (trimV p.nombres)
  let em := trimV p.email
  let tf := trimV p.telefono
  let tv := escapeV (trimV p.tipo_evento)
  let pl := escapeV (trimV p.plan_evento)
  let errs :=
    errIf (lenOkB 2 27 a) "apellidos" "Los apellidos deben tener al menos 2 caracteres" ++
    errIf (lenOkB 2 20 n) "nombres" "El nombre debe tener al menos 2 caracteres" ++
    errIf (isEmailModel em) "email" "Ingresa un email válido" ++
    errIf (isNumericV tf) "telefono" "Invalid value" ++
    errIf (lenOkB 10 10 tf) "telefono" "Número de teléfono debe ser de 10 dígitos" ++
    errIf (lenOkB 3 10 tv) "tipo_evento" "Tipo de evento debe ser válido" ++
    errIf (decide (pl = "Clasico" ∨ pl = "Premium" ∨ pl = "Golden")) "plan_evento" "Plan de evento no válido" ++
    errIf (isNumericV p.cantidad_anticipo) "cantidad_anticipo" "Cantidad de anticipo debe ser un número" ++
    errIf (decide (p.horas_renta = "3" ∨ p.horas_renta = "4" ∨ p.horas_renta = "5" ∨
      p.horas_renta = "6" ∨ p.horas_renta = "7")) "horas_renta" "Horas de renta no válidas" ++
    errIf (isBooleanV p.compromiso_pago) "compromiso_pago" "Compromiso de pago debe ser verdadero o falso"
  (errs,
   { apellidos := a, nombres := n, email := em, telefono := tf,
     tipo_evento := tv, plan_evento := pl,
     cantidad_anticipo := p.cantidad_anticipo,
     servicio_adicional := p.servicio_adicional.map (fun s => escapeV (trimV s)),
     horas_renta := p.horas_renta, compromiso_pago := p.compromiso_pago })

/-- Identifier generated by storage for an inserted row: one more than the
largest id in the table. -/
def nextId (t : List Reserva) : Nat :=
  t.foldr (fun r m => max r.id m) 0 + 1

/-- The row built by the create handlers from the validated body: the given
sanitizer on the four free-text fields (with servicio_adicional defaulted by
the JS expression req.body.servicio_adicional or-else the empty string), the
remaining fields passed through. -/
def mkRowWith (san : String → String) (t : List Reserva) (b : Payload) : Reserva :=
  { id := nextId t,
    apellidos := san b.apellidos,
    nombres := san b.nombres,
    email := b.email,
    telefono := b.telefono,
    tipo_evento := san b.tipo_evento,
    plan_evento := b.plan_evento,
    cantidad_anticipo := b.cantidad_anticipo,
    servicio_adicional := some (san (b.servicio_adicional.getD "")),
    horas_renta := b.horas_renta,
    compromiso_pago := b.compromiso_pago }

/-- POST /guardar-reserva of src/server.js lines 64-116: run the validation
chains, answer 400 with the errors array and insert nothing when any check
failed, otherwise insert exactly one row built from the mutated body and
answer the success message. -/
def guardarReservaS (t : List Reserva) (p : Payload) : Resp × List Reserva :=
  let vr := validateS p
  if vr.1.isEmpty then
    (Resp.okMsg "Reserva guardada con éxito", t ++ [mkRowWith sanitizeInput t vr.2])
  else (Resp.badRequest vr.1, t)

/-- POST /guardar-reserva of src/unnamed/part_000 lines 63-113: same handler
over the part_000 validation chains and sanitizer. -/
def guardarReservaP0 (t : List Reserva) (p : Payload) : Resp × List Reserva :=
  let vr := validateP0 p
  if vr.1.isEmpty then
    (Resp.okMsg "Reserva guardada con éxito", t ++ [mkRowWith sanitizeInputP0 t vr.2])
  else (Resp.badRequest vr.1, t)

/-- GET /reservas (both variants): SELECT * FROM reservas LIMIT 10. -/
def obtenerReservas (t : List Reserva) : Resp :=
  Resp.okRows (t.take 10)

/-- Number of rows an okRows response carries. -/
def Resp.rowCount : Resp → Nat
  | .okRows rows => rows.length
  | _ => 0

/-- DELETE /eliminar-reserva/:id (both variants): DELETE FROM reservas WHERE
id = ?, then 200 on a positive affectedRows count and 404 otherwise. -/
def eliminarReserva (t : List Reserva) (id : Nat) : Resp × List Reserva :=
  let kept := t.filter (fun r => !(r.id == id))
  let affected := t.length - kept.length
  if affected > 0 then (Resp.okMsg "Reserva eliminada con éxito", kept)
  else (Resp.notFound "Reserva no encontrada", kept)

/-- PUT /actualizar-reserva/:id of src/unnamed/part_000 lines 134-151:
UPDATE of all ten fields by identifier, writing the body exactly as received
(no validation chain, no sanitizer call), then 200 on a positive
affectedRows count and 404 otherwise. -/
def actualizarReserva (t : List Reserva) (id : Nat) (p : Payload) : Resp × List Reserva :=
  let matched := (t.filter (fun r => r.id == id)).length
  let updated := t.map (fun r =>
    if r.id == id then
      { r with apellidos := p.apellidos, nombres := p.nombres, email := p.email,
               telefono := p.telefono, tipo_evento := p.tipo_evento,
               plan_evento := p.plan_evento, cantidad_anticipo := p.cantidad_anticipo,
               servicio_adicional := p.servicio_adicional,
               horas_renta := p.horas_renta, compromiso_pago := p.compromiso_pago }
    else r)
  if matched > 0 then (Resp.okMsg "Reserva actualizada con éxito", updated)
  else (Resp.notFound "Reserva no encontrada", updated)

/-- Modelled from the spec: the express-rate-limit fixed-window state for
one client identity (the library is not in src; src configures it at
src/server.js lines 24-28). -/
structure LimState where
  windowStart : Nat
  hits : Nat
deriving DecidableEq, Repr

/-- Window length configured at src/server.js line 25: 2 * 60 * 1000 ms. -/
def windowMsV : Nat := 2 * 60 * 1000

/-- Request cap configured at src/server.js line 26. -/
def maxReqV : Nat := 125

/-- Rejection message configured at src/server.js line 27. -/
def limitMsg : String := "¡Ja! No puedes tirar mi server."

/-- Outcome of one request at the rate limiter. -/
inductive LimDecision where
  | allowed
  | limited (status : Nat) (msg : String)
deriving DecidableEq, Repr

/-- Modelled from the spec: one request through the fixed-window limiter.
When the window has expired the counter restarts at zero from the current
instant; the request is counted and rejected with 429 and the configured
message once the count exceeds the cap. -/
def limiterStep (s : LimState) (now : Nat) : LimState × LimDecision :=
  let s1 := if s.windowStart + windowMsV ≤ now then LimState.mk now 0 else s
  let s2 := LimState.mk s1.windowStart (s1.hits + 1)
  if s2.hits > maxReqV then (s2, .limited 429 limitMsg) else (s2, .allowed)

/-- State of one client after k requests all issued at the window-opening
instant t0. -/
def limiterRun (t0 : Nat) : Nat → LimState
  | 0 => LimState.mk t0 0
  | k + 1 => (limiterStep (limiterRun t0 k) t0).1

/-- The per-field rules of the data model as the server.js validation
chains actually check them: each bound or membership test is evaluated on
the whitespace-trimmed submitted value (the .trim() sanitizer runs before
every check). This is the specification side of the create contract. -/
def createRulesS (p : Payload) : Bool :=
  lenOkB 2 27 (trimV p.apellidos) &&
  lenOkB 2 20 (trimV p.nombres) &&
  isEmailModel (trimV p.email) &&
  (isNumericV (trimV p.telefono) && lenOkB 10 10 (trimV p.telefono)) &&
  lenOkB 3 10 (trimV p.tipo_evento) &&
  decide (trimV p.plan_evento = "Clasico" ∨ trimV p.plan_evento = "Premium" ∨
    trimV p.plan_evento = "Golden") &&
  isNumericV p.cantidad_anticipo &&
  decide (p.horas_renta = "3" ∨ p.horas_renta = "4" ∨ p.horas_renta = "5" ∨
    p.horas_renta = "6" ∨ p.horas_renta = "7") &&
  isBooleanV p.compromiso_pago

/-- A payload satisfying every field rule, used as concrete input by
witnesses and counterexamples. -/
def pValid : Payload :=
  { apellidos := "Ortiz", nombres := "Ana", email := "ana@mail.com",
    telefono := "5512345678", tipo_evento := "Boda", plan_evento := "Clasico",
    cantidad_anticipo := "100", servicio_adicional := none,
    horas_renta := "3", compromiso_pago := "true" }

/-- The pValid payload with apellidos replaced by the one-character string
of an ampersand: it violates the length rule (one character), yet its
HTML-escaped form has five characters. -/
def pAmpCex : Payload := { pValid with apellidos := "&" }

/-- The pValid payload with a 27-character apellidos containing one
ampersand: within the raw bound, but the escaped form has 31 characters. -/
def p27Cex : Payload := { pValid with apellidos := "&aaaaaaaaaaaaaaaaaaaaaaaaaa" }

/-- The pValid payload with apellidos replaced by the three-character
string a-ampersand-b: already trimmed, within every bound, and accepted by
both variants, but its escaped form differs from it. -/
def pEscCex : Payload := { pValid with apellidos := "a&b" }

/-- The pValid payload with servicio_adicional present but equal to the
empty string: a falsy value in the handler's or-else default. -/
def pEmptyServ : Payload := { pValid with servicio_adicional := some "" }

/-- The pValid payload with a one-character apellidos: violates the length
rule under any reading. -/
def pShortCex : Payload := { pValid with apellidos := "x" }

/-- A concrete stored row used by witnesses. -/
def rDemo : Reserva :=
  { id := 5, apellidos := "Ortiz", nombres := "Ana", email := "ana@mail.com",
    telefono := "5512345678", tipo_evento := "Boda", plan_evento := "Clasico",
    cantidad_anticipo := "100", servicio_adicional := some "",
    horas_renta := "3", compromiso_pago := "true" }

/-- Characters over which a lazy &.*?; match can extend: regex-dot
characters other than the terminating ';'. -/
def allDotNS (xs : List Char) : Prop :=
  ∀ x ∈ xs, isDotChar x = true ∧ x ≠ ';'

/-- No '&' of a string is the start of a completed &.*?; match: the residue
invariant of the entity-stripping pass. -/
def okAmp : List Char → Bool
  | [] => true
  | c :: rest => (if c = '&' then (scanSemi rest).isNone else true) && okAmp rest

theorem scanSemi_append_of_allDot (xs ys : List Char) (h : allDotNS xs) :
    scanSemi (xs ++ ys) = scanSemi ys := by
  induction xs with
  | nil => rfl
  | cons x xs ih =>
    obtain ⟨hdot, hne⟩ := h x (List.mem_cons_self x xs)
    simp only [List.cons_append, scanSemi, if_neg hne, hdot, if_true]
    exact ih (fun a ha => h a (List.mem_cons_of_mem x ha))

theorem scanSemi_of_allDot (xs : List Char) (h : allDotNS xs) :
    scanSemi xs = none := by
  have := scanSemi_append_of_allDot xs [] h
  simpa using this

theorem scanSemi_blocked (c : Char) (ys : List Char) (h : isDotChar c = false) :
    scanSemi (c :: ys) = none := by
  have hne : c ≠ ';' := by
    intro he; subst he; simp [isDotChar] at h
  simp [scanSemi, if_neg hne, h]

theorem okAmp_append_blocked (xs : List Char) (c : Char) (ys : List Char)
    (hx : allDotNS xs) (hc : isDotChar c = false) (hys : okAmp (c :: ys) = true) :
    okAmp (xs ++ c :: ys) = true := by
  induction xs with
  | nil => simpa using hys
  | cons x xs ih =>
    obtain ⟨hdot, hne⟩ := hx x (List.mem_cons_self x xs)
    have hrest : okAmp (xs ++ c :: ys) = true :=
      ih (fun a ha => hx a (List.mem_cons_of_mem x ha))
    simp only [List.cons_append, okAmp, Bool.and_eq_true]
    refine ⟨?_, hrest⟩
    by_cases hb : x = '&'
    · have hall : allDotNS xs := fun a ha => hx a (List.mem_cons_of_mem x ha)
      have : scanSemi (xs ++ c :: ys) = none := by
        rw [scanSemi_append_of_allDot xs _ hall, scanSemi_blocked c ys hc]
      simp [hb, this]
    · simp [hb]

theorem okAmp_of_allDot (xs : List Char) (h : allDotNS xs) : okAmp xs = true := by
  induction xs with
  | nil => rfl
  | cons x xs ih =>
    have hall : allDotNS xs := fun a ha => h a (List.mem_cons_of_mem x ha)
    simp only [okAmp, Bool.and_eq_true]
    refine ⟨?_, ih hall⟩
    by_cases hb : x = '&'
    · simp [hb, scanSemi_of_allDot xs hall]
    · simp [hb]

theorem esAux_some_of_none (rest : List Char) :
    ∀ buf, scanSemi rest = none →
      esAux (some buf) rest = buf.reverse ++ esAux none rest := by
  induction rest with
  | nil => intro buf _; simp [esAux]
  | cons c r ih =>
    intro buf h
    by_cases hsemi : c = ';'
    · subst hsemi; simp [scanSemi] at h
    · by_cases hdot : isDotChar c = true
      · have hr : scanSemi r = none := by
          simpa [scanSemi, if_neg hsemi, hdot] using h
        by_cases hamp : c = '&'
        · subst hamp
          simp only [esAux, if_neg hsemi, hdot, if_true, if_pos rfl]
          rw [ih ('&' :: buf) hr, ih ['&'] hr]
          simp
        · simp only [esAux, if_neg hsemi, hdot, if_true, if_neg hamp]
          rw [ih _ hr]
          simp
      · have hdot' : isDotChar c = false := by simpa using hdot
        have hamp : c ≠ '&' := by
          intro he; subst he; simp [isDotChar] at hdot'
        simp [esAux, if_neg hsemi, hdot', if_neg hamp]

theorem okAmp_esAux (cs : List Char) :
    (∀ buf, allDotNS buf → okAmp (esAux (some buf) cs) = true) ∧
      okAmp (esAux none cs) = true := by
  induction cs with
  | nil =>
    constructor
    · intro buf hbuf
      have : allDotNS buf.reverse := fun a ha => hbuf a (List.mem_reverse.mp ha)
      simpa [esAux] using okAmp_of_allDot _ this
    · simp [esAux, okAmp]
  | cons c r ih =>
    obtain ⟨ih1, ih2⟩ := ih
    constructor
    · intro buf hbuf
      by_cases hsemi : c = ';'
      · subst hsemi; simpa [esAux] using ih2
      · by_cases hdot : isDotChar c = true
        · have : allDotNS (c :: buf) := by
            intro a ha
            rcases List.mem_cons.mp ha with h | h
            · exact h ▸ ⟨hdot, hsemi⟩
            · exact hbuf a h
          simpa [esAux, if_neg hsemi, hdot] using ih1 (c :: buf) this
        · have hdot' : isDotChar c = false := by simpa using hdot
          have hamp : c ≠ '&' := by
            intro he; subst he; simp [isDotChar] at hdot'
          have hrev : allDotNS buf.reverse := fun a ha => hbuf a (List.mem_reverse.mp ha)
          have htail : okAmp (c :: esAux none r) = true := by
            simp only [okAmp, Bool.and_eq_true, if_neg hamp, true_and]
            exact ih2
          simpa [esAux, if_neg hsemi, hdot'] using
            okAmp_append_blocked _ c _ hrev hdot' htail
    · by_cases hamp : c = '&'
      · subst hamp
        have : allDotNS ['&'] := by
          intro a ha
          simp only [List.mem_singleton] at ha
          subst ha
          exact ⟨by decide, by decide⟩
        simpa [esAux] using ih1 ['&'] this
      · simp only [esAux, if_neg hamp, okAmp, Bool.and_eq_true, if_neg hamp, true_and]
        exact ih2

theorem esAux_stable (cs : List Char) (h : okAmp cs = true) :
    esAux none cs = cs := by
  induction cs with
  | nil => rfl
  | cons c r ih =>
    simp only [okAmp, Bool.and_eq_true] at h
    obtain ⟨h1, h2⟩ := h
    by_cases hamp : c = '&'
    · subst hamp
      have hnone : scanSemi r = none := by
        rw [if_pos rfl] at h1
        exact Option.isNone_iff_eq_none.mp h1
      simp only [esAux, if_pos rfl]
      rw [esAux_some_of_none r ['&'] hnone, ih h2]
      simp
    · simp only [esAux, if_neg hamp]
      rw [ih h2]

theorem entityStrip_idem (cs : List Char) :
    entityStrip (entityStrip cs) = entityStrip cs :=
  esAux_stable _ (okAmp_esAux cs).2

theorem removeTagsF_no_lt : ∀ n cs, '<' ∉ removeTagsF n cs := by
  intro n
  induction n with
  | zero => intro cs; simp [removeTagsF]
  | succ n ih =>
    intro cs
    match cs with
    | [] => simp [removeTagsF]
    | c :: rest =>
      by_cases hlt : c = '<'
      · subst hlt
        by_cases hs : isScriptOpen rest = true
        · simpa [removeTagsF, hs] using ih (afterCloseScript (rest.drop 6))
        · have hs' : isScriptOpen rest = false := by simpa using hs
          simpa [removeTagsF, hs'] using ih (dropThroughGt rest)
      · simp only [removeTagsF, if_neg hlt, List.mem_cons, not_or]
        exact ⟨fun he => hlt he.symm, ih rest⟩

theorem removeTagsF_id : ∀ n cs, '<' ∉ cs → cs.length ≤ n → removeTagsF n cs = cs := by
  intro n
  induction n with
  | zero =>
    intro cs _ hlen
    have : cs = [] := List.length_eq_zero.mp (Nat.le_zero.mp hlen)
    subst this; rfl
  | succ n ih =>
    intro cs hmem hlen
    match cs with
    | [] => rfl
    | c :: rest =>
      have hc : c ≠ '<' := by
        intro he; exact hmem (he ▸ List.mem_cons_self c rest)
      have hrest : '<' ∉ rest := fun h => hmem (List.mem_cons_of_mem c h)
      simp only [removeTagsF, if_neg hc]
      rw [ih rest hrest (Nat.le_of_succ_le_succ (by simpa using hlen))]

theorem removeTags_no_lt (cs : List Char) : '<' ∉ removeTags cs :=
  removeTagsF_no_lt _ _

theorem removeTags_id (cs : List Char) (h : '<' ∉ cs) : removeTags cs = cs :=
  removeTagsF_id _ _ h le_rfl

theorem esAux_not_mem (a : Char) :
    ∀ cs, a ∉ cs →
      (∀ buf, a ∉ buf → a ∉ esAux (some buf) cs) ∧ a ∉ esAux none cs := by
  intro cs
  induction cs with
  | nil =>
    intro _
    refine ⟨fun buf hbuf => ?_, by simp [esAux]⟩
    simpa [esAux, List.mem_reverse] using hbuf
  | cons c r ih =>
    intro hmem
    have hac : a ≠ c := fun he => hmem (he ▸ List.mem_cons_self c r)
    have har : a ∉ r := fun h => hmem (List.mem_cons_of_mem c h)
    obtain ⟨ih1, ih2⟩ := ih har
    constructor
    · intro buf hbuf
      by_cases hsemi : c = ';'
      · subst hsemi; simpa [esAux] using ih2
      · by_cases hdot : isDotChar c = true
        · have : a ∉ c :: buf := by
            simp only [List.mem_cons, not_or]
            exact ⟨hac, hbuf⟩
          simpa [esAux, if_neg hsemi, hdot] using ih1 (c :: buf) this
        · have hdot' : isDotChar c = false := by simpa using hdot
          simp only [esAux, if_neg hsemi, hdot', if_false, Bool.false_eq_true,
            List.mem_append, List.mem_cons, List.mem_reverse, not_or]
          exact ⟨hbuf, hac, ih2⟩
    · by_cases hamp : c = '&'
      · subst hamp
        have : a ∉ ['&'] := by simpa using hac
        simpa [esAux] using ih1 ['&'] this
      · simp only [esAux, if_neg hamp, List.mem_cons, not_or]
        exact ⟨hac, ih2⟩

theorem entityStrip_not_mem (cs : List Char) (a : Char) (h : a ∉ cs) :
    a ∉ entityStrip cs :=
  (esAux_not_mem a cs h).2

theorem sanitizeInput_idem (s : String) :
    sanitizeInput (sanitizeInput s) = sanitizeInput s := by
  show sanitizeInput ⟨entityStrip (removeTags s.data)⟩ = _
  unfold sanitizeInput
  have h1 : '<' ∉ entityStrip (removeTags s.data) :=
    entityStrip_not_mem _ _ (removeTags_no_lt _)
  show (⟨entityStrip (removeTags (entityStrip (removeTags s.data)))⟩ : String) = _
  rw [removeTags_id _ h1, entityStrip_idem]

theorem sanitizeInputP0_idem (s : String) :
    sanitizeInputP0 (sanitizeInputP0 s) = sanitizeInputP0 s := by
  unfold sanitizeInputP0
  show (⟨removeTags (removeTags s.data)⟩ : String) = _
  rw [removeTags_id _ (removeTags_no_lt _)]

theorem errIf_eq_nil (b : Bool) (param msg : String) :
    errIf b param msg = [] ↔ b = true := by
  cases b <;> simp [errIf]

set_option maxHeartbeats 1000000 in
theorem validateS_errs_nil (p : Payload) :
    (validateS p).1 = [] ↔ createRulesS p = true := by
  simp only [validateS, createRulesS, List.append_eq_nil, errIf_eq_nil,
    Bool.and_eq_true, decide_eq_true_eq]
  tauto

theorem filter_length_pos_iff_any (t : List Reserva) (f : Reserva → Bool) :
    0 < (t.filter f).length ↔ t.any f = true := by
  rw [List.length_pos, Ne, List.filter_eq_nil_iff]
  simp [List.any_eq_true]

theorem filter_id_length_one (t : List Reserva) (id : Nat)
    (hnd : (t.map (fun r => r.id)).Nodup)
    (hex : ∃ r ∈ t, r.id = id) :
    (t.filter (fun r => r.id == id)).length = 1 := by
  induction t with
  | nil => rcases hex with ⟨r, hr, _⟩; cases hr
  | cons a t ih =>
    rw [List.map_cons, List.nodup_cons] at hnd
    obtain ⟨hna, hnd⟩ := hnd
    by_cases ha : a.id = id
    · have hnone : t.filter (fun r => r.id == id) = [] := by
        rw [List.filter_eq_nil_iff]
        intro r hr hbeq
        exact hna (List.mem_map.mpr ⟨r, hr, by
          rw [beq_iff_eq] at hbeq
          rw [hbeq, ha]⟩)
      simp [List.filter_cons, ha, hnone]
    · rcases hex with ⟨r, hr, hrid⟩
      rcases List.mem_cons.mp hr with h | h
      · exact absurd (h ▸ hrid) ha
      · have hone := ih hnd ⟨r, h, hrid⟩
        simpa [List.filter_cons, ha] using hone

theorem guardarS_valid_eq (t : List Reserva) (p : Payload)
    (h : (validateS p).1 = []) :
    guardarReservaS t p =
      (Resp.okMsg "Reserva guardada con éxito",
       t ++ [mkRowWith sanitizeInput t (validateS p).2]) := by
  have hemp : (validateS p).1.isEmpty = true := by rw [h]; rfl
  simp only [guardarReservaS, hemp, eq_self_iff_true, if_true]

theorem limiterRun_state (t0 : Nat) : ∀ k, limiterRun t0 k = LimState.mk t0 k := by
  intro k
  induction k with
  | zero => rfl
  | succ k ih =>
    have hw : ¬(t0 + windowMsV ≤ t0) := by
      simp only [windowMsV]; omega
    simp only [limiterRun, ih, limiterStep, if_neg hw]
    split <;> rfl

/-- C1 (amended): for the server.js create operation, every payload
violating at least one field rule as the chains check it (on the
whitespace-trimmed values) receives status 400 carrying a nonempty array of
per-field error descriptors, and the stored table is unchanged. -/
theorem c1_create_invalid_rejected (t : List Reserva) (p : Payload)
    (h : createRulesS p = false) :
    (validateS p).1 ≠ [] ∧
      guardarReservaS t p = (Resp.badRequest (validateS p).1, t) ∧
      (guardarReservaS t p).1.status = 400 := by
  have hne : (validateS p).1 ≠ [] := by
    intro hnil
    rw [validateS_errs_nil] at hnil
    rw [hnil] at h
    cases h
  have hemp : (validateS p).1.isEmpty = false := by
    cases hv : (validateS p).1 with
    | nil => exact absurd hv hne
    | cons a l => simp
  have heq : guardarReservaS t p = (Resp.badRequest (validateS p).1, t) := by
    simp [guardarReservaS, hemp]
  refine ⟨hne, heq, ?_⟩
  rw [heq]
  rfl

/-- C1 witness: the payload with a one-character apellidos violates the
rules and the server.js create answers 400 without touching the table. -/
theorem c1_create_invalid_rejected_witness :
    createRulesS pShortCex = false ∧
      ((validateS pShortCex).1 ≠ [] ∧
        guardarReservaS [] pShortCex = (Resp.badRequest (validateS pShortCex).1, []) ∧
        (guardarReservaS [] pShortCex).1.status = 400) :=
  ⟨by decide, c1_create_invalid_rejected [] pShortCex (by decide)⟩

/-- C1 counterexample: the part_000 create operation accepts the payload
whose apellidos is the single ampersand character, although that value
violates the apellidos length rule (the chain escapes to five characters
before measuring): it responds 200 and inserts a row, where the claim
demands status 400 and no insert. -/
theorem c1_counterexample :
    pAmpCex.apellidos.length = 1 ∧
      (guardarReservaP0 [] pAmpCex).1 = Resp.okMsg "Reserva guardada con éxito" ∧
      (guardarReservaP0 [] pAmpCex).2 ≠ [] := by
  refine ⟨by decide, by decide, by decide⟩

/-- C2 (amended): for the server.js create operation on a payload
satisfying every field rule (as checked, on the whitespace-trimmed
values), exactly one row is appended and the success message returned;
the stored free-text fields are the sanitizer applied to the
escape-sanitized trimmed submitted values (the chains' trim and escape
sanitizers mutate the body before the handler reads it), the stored email,
telefono and plan_evento are the trimmed submitted values, and
cantidad_anticipo, horas_renta and compromiso_pago are stored unmodified. -/
theorem c2_create_valid_inserts (t : List Reserva) (p : Payload)
    (h : createRulesS p = true) :
    guardarReservaS t p =
      (Resp.okMsg "Reserva guardada con éxito",
       t ++ [{ id := nextId t,
               apellidos := sanitizeInput (escapeV (trimV p.apellidos)),
               nombres := sanitizeInput (escapeV (trimV p.nombres)),
               email := trimV p.email,
               telefono := trimV p.telefono,
               tipo_evento := sanitizeInput (escapeV (trimV p.tipo_evento)),
               plan_evento := trimV p.plan_evento,
               cantidad_anticipo := p.cantidad_anticipo,
               servicio_adicional :=
                 some (sanitizeInput ((p.servicio_adicional.map
                   (fun s => escapeV (trimV s))).getD "")),
               horas_renta := p.horas_renta,
               compromiso_pago := p.compromiso_pago }]) := by
  rw [guardarS_valid_eq t p ((validateS_errs_nil p).mpr h)]
  simp [mkRowWith, validateS]

/-- C2 witness: the valid payload pValid is inserted as one row with the
stated field values. -/
theorem c2_create_valid_inserts_witness :
    createRulesS pValid = true ∧
      guardarReservaS [] pValid =
        (Resp.okMsg "Reserva guardada con éxito",
         [] ++ [{ id := nextId [],
                  apellidos := sanitizeInput (escapeV (trimV pValid.apellidos)),
                  nombres := sanitizeInput (escapeV (trimV pValid.nombres)),
                  email := trimV pValid.email,
                  telefono := trimV pValid.telefono,
                  tipo_evento := sanitizeInput (escapeV (trimV pValid.tipo_evento)),
                  plan_evento := trimV pValid.plan_evento,
                  cantidad_anticipo := pValid.cantidad_anticipo,
                  servicio_adicional :=
                    some (sanitizeInput ((pValid.servicio_adicional.map
                      (fun s => escapeV (trimV s))).getD "")),
                  horas_renta := pValid.horas_renta,
                  compromiso_pago := pValid.compromiso_pago }]) :=
  ⟨by decide, c2_create_valid_inserts [] pValid (by decide)⟩

/-- C2 counterexample: the payload pEscCex satisfies every field rule on
the submitted values themselves (its apellidos a-ampersand-b is already
trimmed and within the bounds) and the create operation accepts it, yet
the inserted row's apellidos is the two-character string ab — the escape
sanitizer rewrites the body to a-amp-entity-b before the handler sanitizes
it — while the sanitizer applied to the submitted value returns it
unchanged, refuting the claim that the stored free-text fields are the
sanitized versions of the submitted values. -/
theorem c2_counterexample :
    createRulesS pEscCex = true ∧
      trimV pEscCex.apellidos = pEscCex.apellidos ∧
      sanitizeInput pEscCex.apellidos = "a&b" ∧
      (guardarReservaS [] pEscCex).1 = Resp.okMsg "Reserva guardada con éxito" ∧
      (guardarReservaS [] pEscCex).2.map (fun r => r.apellidos) = ["ab"] := by
  refine ⟨by decide, by decide, by decide, by decide, by decide⟩

/-- C3: the part_000 update operation replaces all ten fields of every row
carrying the identifier with the payload exactly as received (no validation
chain and no sanitizer is applied to any field), answers the success
message when at least one row is affected and the not-found message when
none is. -/
theorem c3_update_full_replace (t : List Reserva) (id : Nat) (p : Payload) :
    (actualizarReserva t id p).2 = t.map (fun r =>
        if r.id == id then
          { r with apellidos := p.apellidos, nombres := p.nombres,
                   email := p.email, telefono := p.telefono,
                   tipo_evento := p.tipo_evento, plan_evento := p.plan_evento,
                   cantidad_anticipo := p.cantidad_anticipo,
                   servicio_adicional := p.servicio_adicional,
                   horas_renta := p.horas_renta,
                   compromiso_pago := p.compromiso_pago }
        else r) ∧
      (actualizarReserva t id p).1 =
        (if t.any (fun r => r.id == id) then Resp.okMsg "Reserva actualizada con éxito"
         else Resp.notFound "Reserva no encontrada") := by
  constructor
  · simp only [actualizarReserva]
    split <;> rfl
  · by_cases hany : t.any (fun r => r.id == id) = true
    · have hpos := (filter_length_pos_iff_any t _).mpr hany
      simp only [actualizarReserva, if_pos hpos, hany, if_true]
    · have hany' : t.any (fun r => r.id == id) = false := by simpa using hany
      have hnpos : ¬(0 < (t.filter (fun r => r.id == id)).length) := by
        rw [filter_length_pos_iff_any]
        simp [hany']
      simp only [actualizarReserva, if_neg hnpos, hany', Bool.false_eq_true, if_false]

/-- C4 counterexample: the server.js sanitizer maps the entity input to the
one-character string b, not to the empty string: the lazy regex removes
each entity separately and the text between them survives. -/
theorem c4_counterexample :
    sanitizeInput "&lt;b&gt;" = "b" ∧ sanitizeInput "&lt;b&gt;" ≠ "" := by
  refine ⟨by decide, by decide⟩

/-- C4 (amended): both sanitizers map the script-element input to the empty
string; on the entity input the server.js sanitizer yields the string b and
the part_000 sanitizer, which has no entity pass, returns it unchanged. -/
theorem c4_sanitizer_values :
    sanitizeInput "<script>alert(1)</script>" = "" ∧
      sanitizeInputP0 "<script>alert(1)</script>" = "" ∧
      sanitizeInput "&lt;b&gt;" = "b" ∧
      sanitizeInputP0 "&lt;b&gt;" = "&lt;b&gt;" := by
  refine ⟨by decide, by decide, by decide, by decide⟩

/-- C5: the sanitizers of both variants are idempotent: applying either one
twice yields the same output as applying it once. -/
theorem c5_sanitizer_idempotent (s : String) :
    sanitizeInput (sanitizeInput s) = sanitizeInput s ∧
      sanitizeInputP0 (sanitizeInputP0 s) = sanitizeInputP0 s :=
  ⟨sanitizeInput_idem s, sanitizeInputP0_idem s⟩

/-- C6: from a fresh window opening at any instant t0, the 125th request of
a client is admitted and the 126th is rejected with status 429 and the
configured message; once the window has expired, a request is handled
exactly as from a fresh counter at the current instant. -/
theorem c6_rate_limit (t0 : Nat) :
    (limiterStep (limiterRun t0 124) t0).2 = LimDecision.allowed ∧
      (limiterStep (limiterRun t0 125) t0).2 = LimDecision.limited 429 limitMsg ∧
      (∀ s now, s.windowStart + windowMsV ≤ now →
        limiterStep s now = limiterStep (LimState.mk now 0) now) := by
  have hw : ∀ x : Nat, ¬(x + windowMsV ≤ x) := by
    intro x; simp only [windowMsV]; omega
  refine ⟨?_, ?_, ?_⟩
  · rw [limiterRun_state]
    simp [limiterStep, maxReqV, hw t0]
  · rw [limiterRun_state]
    simp [limiterStep, maxReqV, hw t0]
  · intro s now hnow
    simp [limiterStep, hnow, hw now]

/-- C6 witness: the window opening at instant 0, and a reset at the expiry
instant. -/
theorem c6_rate_limit_witness :
    (limiterStep (limiterRun 0 124) 0).2 = LimDecision.allowed ∧
      (limiterStep (limiterRun 0 125) 0).2 = LimDecision.limited 429 limitMsg ∧
      limiterStep (LimState.mk 0 7) windowMsV =
        limiterStep (LimState.mk windowMsV 0) windowMsV :=
  ⟨(c6_rate_limit 0).1, (c6_rate_limit 0).2.1,
   (c6_rate_limit 0).2.2 (LimState.mk 0 7) windowMsV (by simp)⟩

/-- C7: the list operation returns at most 10 records whatever the table
holds. -/
theorem c7_list_at_most_ten (t : List Reserva) :
    (obtenerReservas t).rowCount ≤ 10 := by
  simp only [obtenerReservas, Resp.rowCount]
  rw [List.length_take]
  exact min_le_left _ _

/-- C8: over a table whose identifiers are distinct, deleting an existing
identifier removes exactly that one row and answers the success message,
while deleting an absent identifier answers not-found and leaves the table
unchanged. -/
theorem c8_delete (t : List Reserva) (id : Nat)
    (hnd : (t.map (fun r => r.id)).Nodup) :
    (t.any (fun r => r.id == id) = true →
        (eliminarReserva t id).1 = Resp.okMsg "Reserva eliminada con éxito" ∧
        (eliminarReserva t id).2.length + 1 = t.length ∧
        (eliminarReserva t id).2 = t.filter (fun r => !(r.id == id))) ∧
      (t.any (fun r => r.id == id) = false →
        (eliminarReserva t id).1 = Resp.notFound "Reserva no encontrada" ∧
        (eliminarReserva t id).2 = t) := by
  constructor
  · intro hany
    have hex : ∃ r ∈ t, r.id = id := by
      rcases List.any_eq_true.mp hany with ⟨r, hr, hbeq⟩
      exact ⟨r, hr, beq_iff_eq.mp hbeq⟩
    have hone := filter_id_length_one t id hnd hex
    have hsplit := List.length_eq_length_filter_add (l := t) (fun r => r.id == id)
    have hlen : (t.filter (fun r => !(r.id == id))).length + 1 = t.length := by
      omega
    have haff : 0 < t.length - (t.filter (fun r => !(r.id == id))).length := by
      omega
    have heq : eliminarReserva t id =
        (Resp.okMsg "Reserva eliminada con éxito",
         t.filter (fun r => !(r.id == id))) := by
      simp only [eliminarReserva, if_pos haff]
    rw [heq]
    exact ⟨rfl, hlen, rfl⟩
  · intro hany
    have hall : ∀ r ∈ t, (!(r.id == id)) = true := by
      intro r hr
      have := List.any_eq_false.mp hany r hr
      simp [this]
    have hkept : t.filter (fun r => !(r.id == id)) = t :=
      List.filter_eq_self.mpr hall
    have haff : ¬(0 < t.length - (t.filter (fun r => !(r.id == id))).length) := by
      rw [hkept]
      omega
    have heq : eliminarReserva t id =
        (Resp.notFound "Reserva no encontrada",
         t.filter (fun r => !(r.id == id))) := by
      simp only [eliminarReserva, if_neg haff]
    rw [heq, hkept]
    exact ⟨rfl, rfl⟩

/-- C8 witness: a one-row table, deleting its identifier and then an absent
one. -/
theorem c8_delete_witness :
    ((eliminarReserva [rDemo] 5).1 = Resp.okMsg "Reserva eliminada con éxito" ∧
      (eliminarReserva [rDemo] 5).2.length + 1 = [rDemo].length ∧
      (eliminarReserva [rDemo] 5).2 = [rDemo].filter (fun r => !(r.id == 5))) ∧
    ((eliminarReserva [rDemo] 6).1 = Resp.notFound "Reserva no encontrada" ∧
      (eliminarReserva [rDemo] 6).2 = [rDemo]) :=
  ⟨(c8_delete [rDemo] 5 (by decide)).1 (by decide),
   (c8_delete [rDemo] 6 (by decide)).2 (by decide)⟩

/-- C9: the two create operations are not equivalent: the payload p27Cex,
whose raw apellidos has 27 characters (within the bound) but whose
HTML-escaped form has 31, is accepted by the server.js variant (length
checked before escaping) and rejected with a validation error by the
part_000 variant (escaped before the length check), which inserts
nothing. -/
theorem c9_variants_differ :
    p27Cex.apellidos.length = 27 ∧
      (escapeV (trimV p27Cex.apellidos)).length = 31 ∧
      (validateS p27Cex).1 = [] ∧
      (validateP0 p27Cex).1 ≠ [] ∧
      (guardarReservaS [] p27Cex).1.status = 200 ∧
      (guardarReservaP0 [] p27Cex).1.status = 400 ∧
      (guardarReservaP0 [] p27Cex).2 = [] := by
  refine ⟨by decide, by decide, by decide, by decide, by decide, by decide, by decide⟩

/-- C10: a payload passing every check whose servicio_adicional is absent
or otherwise falsy (the empty string, the only falsy string value) is
inserted with servicio_adicional equal to the sanitization of the empty
string: a defined (non-null) string column value. -/
theorem c10_servicio_default (t : List Reserva) (p : Payload)
    (h : (validateS p).1 = [])
    (h0 : p.servicio_adicional = none ∨ p.servicio_adicional = some "") :
    (guardarReservaS t p).2.map (fun r => r.servicio_adicional) =
        t.map (fun r => r.servicio_adicional) ++ [some (sanitizeInput "")] ∧
      sanitizeInput "" = "" := by
  refine ⟨?_, rfl⟩
  rw [guardarS_valid_eq t p h, List.map_append]
  rcases h0 with h0 | h0 <;>
    simp [mkRowWith, validateS, h0, show escapeV (trimV "") = "" from rfl]

/-- C10 witness: the valid payload pValid has no servicio_adicional, the
valid payload pEmptyServ carries the falsy empty string there, and both
inserted rows store the defined empty string. -/
theorem c10_servicio_default_witness :
    ((validateS pValid).1 = [] ∧ pValid.servicio_adicional = none) ∧
      ((validateS pEmptyServ).1 = [] ∧ pEmptyServ.servicio_adicional = some "") ∧
      ((guardarReservaS [] pValid).2.map (fun r => r.servicio_adicional) =
          ([] : List Reserva).map (fun r => r.servicio_adicional) ++
            [some (sanitizeInput "")] ∧
        sanitizeInput "" = "") ∧
      ((guardarReservaS [] pEmptyServ).2.map (fun r => r.servicio_adicional) =
          ([] : List Reserva).map (fun r => r.servicio_adicional) ++
            [some (sanitizeInput "")] ∧
        sanitizeInput "" = "") :=
  ⟨⟨by decide, rfl⟩, ⟨by decide, rfl⟩,
   c10_servicio_default [] pValid (by decide) (Or.inl rfl),
   c10_servicio_default [] pEmptyServ (by decide) (Or.inr rfl)⟩

end Reservas
